import Mathlib

/-!
Verification of the LUXusb download core against its specification.

Shallow embedding of `src/luxusb/utils/downloader.py` and
`src/luxusb/utils/mirror_stats.py`.  Machine-level conventions:

* file contents are `List Nat` (byte values);
* the SHA-256 digest is abstracted as a parameter `digest : List Nat → String`
  together with the exact stream of bytes fed to the running hash — all
  verified properties depend only on which bytes are hashed, never on the
  internals of SHA-256;
* the filesystem slots relevant to one destination path (`<dest>.part`,
  `<dest>.resume` sidecar, and the destination itself) are explicit `Option`
  fields of a state record;
* wall-clock timing of the progress-callback throttle is abstracted as an
  arbitrary per-chunk boolean oracle `timeDue`, which over-approximates every
  possible timing;
* Python float arithmetic on mirror statistics is modelled with `ℚ`;
* a path string stands for the final name component of the path (the only part
  that `pathlib.PurePath.with_suffix` inspects).
-/

namespace LUXusb

/-! ## Path model: `pathlib.PurePath.with_suffix`

`ISODownloader._get_metadata_path` (downloader.py line 209) and the partial
file path (line 291) are both produced with `Path.with_suffix`, whose CPython
semantics we reproduce here: the suffix of a name is the part starting at the
last dot, provided that dot is neither the first nor the last character;
`with_suffix` drops that suffix (if any) and concatenates the new one. -/

/-- Index of the last `'.'` in a character list, if any (CPython `str.rfind`). -/
def rfindDot : List Char → Option Nat
  | [] => none
  | c :: rest =>
    match rfindDot rest with
    | some i => some (i + 1)
    | none => if c = '.' then some 0 else none

/-- CPython `PurePath.suffix` restricted to a bare file name. -/
def pySuffix (name : String) : String :=
  match rfindDot name.toList with
  | some i => if 0 < i ∧ i < name.length - 1 then ⟨name.toList.drop i⟩ else ""
  | none => ""

/-- CPython `PurePath.with_suffix` restricted to a bare file name: replace the
existing suffix when there is one, otherwise append. -/
def withSuffix (name suffix : String) : String :=
  let old := pySuffix name
  if old = "" then name ++ suffix
  else ⟨name.toList.take (name.toList.length - old.toList.length)⟩ ++ suffix

/-- `FileExtension.PART` from `luxusb/constants.py` line 219. -/
def partExtension : String := ".part"

/-- `FileExtension.RESUME` from `luxusb/constants.py` line 220. -/
def resumeExtension : String := ".resume"

/-- `ISODownloader._get_metadata_path` (downloader.py lines 207-209):
`destination.with_suffix(FileExtension.RESUME)`. -/
def get_metadata_path (destination : String) : String :=
  withSuffix destination resumeExtension

/-- The partial file path (downloader.py lines 240 and 291):
`destination.with_suffix(FileExtension.PART)`. -/
def part_file_path (destination : String) : String :=
  withSuffix destination partExtension

/-! ## Mirror statistics (`luxusb/utils/mirror_stats.py`) -/

/-- `MirrorStats` dataclass (mirror_stats.py lines 16-24).  Response times are
Python floats, modelled as rationals. -/
structure MirrorStats where
  url : String
  success_count : Nat
  failure_count : Nat
  total_response_time_ms : ℚ
  last_used : Option String
  last_updated : Option String
deriving DecidableEq

/-- `MirrorStats.average_response_time_ms` (mirror_stats.py lines 26-31). -/
def MirrorStats.average_response_time_ms (s : MirrorStats) : ℚ :=
  if s.success_count = 0 then 0
  else s.total_response_time_ms / s.success_count

/-- `MirrorStats.success_rate` (mirror_stats.py lines 33-39). -/
def MirrorStats.success_rate (s : MirrorStats) : ℚ :=
  if s.success_count + s.failure_count = 0 then 100
  else ((s.success_count : ℚ) / ((s.success_count : ℚ) + (s.failure_count : ℚ))) * 100

/-- `MirrorStats.health_status` (mirror_stats.py lines 41-50). -/
def MirrorStats.health_status (s : MirrorStats) : String :=
  if 80 ≤ s.success_rate then "good"
  else if 50 ≤ s.success_rate then "warning"
  else "poor"

/-- One `(url, success_rate, average_response_time_ms)` entry of the
`mirror_data` list built by `MirrorStatsTracker.rank_mirrors`
(mirror_stats.py lines 148-158); a URL with no stats gets `(url, 100.0, 0.0)`.
The tracker's `self._stats` dictionary is modelled as a lookup function. -/
def mirror_entry (stats : String → Option MirrorStats) (url : String) :
    String × ℚ × ℚ :=
  match stats url with
  | none => (url, 100, 0)
  | some s => (url, s.success_rate, s.average_response_time_ms)

/-- The sort order of `mirror_data.sort(key=lambda x: (-x[1], x[2]))`
(mirror_stats.py line 161): success rate descending, then average response
time ascending. -/
def rankLe (a b : String × ℚ × ℚ) : Prop :=
  b.2.1 < a.2.1 ∨ (a.2.1 = b.2.1 ∧ a.2.2 ≤ b.2.2)

instance : DecidableRel rankLe := fun a b =>
  inferInstanceAs (Decidable (_ ∨ _))

instance : IsTotal (String × ℚ × ℚ) rankLe where
  total a b := by
    rcases lt_trichotomy a.2.1 b.2.1 with h | h | h
    · exact Or.inr (Or.inl h)
    · rcases le_total a.2.2 b.2.2 with h' | h'
      · exact Or.inl (Or.inr ⟨h, h'⟩)
      · exact Or.inr (Or.inr ⟨h.symm, h'⟩)
    · exact Or.inl (Or.inl h)

instance : IsTrans (String × ℚ × ℚ) rankLe where
  trans a b c hab hbc := by
    rcases hab with h | ⟨h, h'⟩
    · rcases hbc with g | ⟨g, g'⟩
      · exact Or.inl (g.trans h)
      · exact Or.inl (g ▸ h)
    · rcases hbc with g | ⟨g, g'⟩
      · exact Or.inl (h ▸ g)
      · exact Or.inr ⟨h.trans g, h'.trans g'⟩

/-- `MirrorStatsTracker.rank_mirrors` (mirror_stats.py lines 137-163): build
`mirror_data`, sort it by `(-success_rate, avg_time)` with Python's stable
sort (modelled by the stable `List.insertionSort`), return the URLs. -/
def rank_mirrors (stats : String → Option MirrorStats)
    (mirror_urls : List String) : List String :=
  ((mirror_urls.map (mirror_entry stats)).insertionSort rankLe).map Prod.fst

/-- Effective success rate used by ranking: 100 for an untested URL. -/
def effective_success_rate (stats : String → Option MirrorStats)
    (url : String) : ℚ :=
  match stats url with
  | none => 100
  | some s => s.success_rate

/-- Effective average response time used by ranking: 0 for an untested URL. -/
def effective_avg_time (stats : String → Option MirrorStats)
    (url : String) : ℚ :=
  match stats url with
  | none => 0
  | some s => s.average_response_time_ms

/-- `MirrorStatsTracker.get_healthy_mirrors` (mirror_stats.py lines 165-173). -/
def get_healthy_mirrors (stats : String → Option MirrorStats)
    (mirror_urls : List String) (min_success_rate : ℚ) : List String :=
  mirror_urls.filter fun url =>
    match stats url with
    | none => true
    | some s => min_success_rate ≤ s.success_rate

/-! ## Download engine (`luxusb/utils/downloader.py`) -/

/-- `ResumeMetadata` dataclass (downloader.py lines 66-74).  `timestamp` is
`datetime.now().isoformat()` in the source; wall-clock time is outside the
model, so checkpoints store `""` there (no decision ever reads it). -/
structure ResumeMetadata where
  url : String
  total_size : Nat
  downloaded_bytes : Nat
  partial_checksum : String
  timestamp : String
  destination : String
deriving DecidableEq

/-- The HTTP source serving one URL, assumed byte-identical across requests:
the full body, whether HEAD advertises `Accept-Ranges: bytes`
(`_supports_resume`, lines 251-259), and whether a ranged GET is answered
with `206 Partial Content` rather than a full `200` body. -/
structure Server where
  content : List Nat
  supportsRange : Bool
  honorsRange : Bool
deriving DecidableEq

/-- The filesystem slots tied to one destination path: the `<dest>.part`
partial file, the destination file, and the parsed `<dest>.resume` sidecar
(`none` also covers an unreadable sidecar, which `_load_resume_metadata`
lines 224-236 treats as absent). -/
structure DLState where
  part : Option (List Nat)
  dest : Option (List Nat)
  meta : Option ResumeMetadata
deriving DecidableEq

/-- Python `str.lower()` as used for the case-insensitive checksum
comparison (downloader.py line 403), implemented structurally so concrete
runs evaluate inside the kernel. -/
def strLower (s : String) : String := ⟨s.data.map Char.toLower⟩

/-- Python truthiness of the optional checksum string: `None` and `""` are
both falsy in `if expected_sha256:` (lines 293 and 401). -/
def optStrSet : Option String → Bool
  | none => false
  | some s => !s.isEmpty

/-- The mutable locals of the streaming loop (lines 348-392): bytes in the
open partial file, `downloaded_size`, the byte stream fed to `sha256_hash`
(`none` when no hash is kept), the current sidecar record, and the
`downloaded_size` values at which the progress callback fired. -/
structure LoopState where
  partBytes : List Nat
  downloaded_size : Nat
  hashFed : Option (List Nat)
  meta : Option ResumeMetadata
  cbLog : List Nat
deriving DecidableEq

/-- The loop-invariant parameters of one transfer: url, destination,
whether a `progress_callback` was supplied, the second `_supports_resume`
probe (line 341), `chunk_size`, and `total_size` (lines 336-338). -/
structure ChunkParams where
  url : String
  destination : String
  hasCallback : Bool
  supports_resume : Bool
  chunk_size : Nat
  total_size : Nat
deriving DecidableEq

/-- The body of `for chunk in response.iter_content(...)` (lines 349-392),
minus the pause gate which is modelled at the control layer: skip an empty
chunk; otherwise write it, count it, feed it to the running hash, and — only
when a callback exists and the 0.5 s throttle (`timeDue`) has elapsed — log a
progress callback and, when additionally the server supports resume and the
10 MiB cadence hits, persist a fresh `ResumeMetadata` (lines 382-392). -/
def processChunk (p : ChunkParams) (timeDue : Bool) (st : LoopState)
    (c : List Nat) : LoopState :=
  if c = [] then st
  else
    let downloaded := st.downloaded_size + c.length
    let fed := st.hashFed.map (fun h => h ++ c)
    if p.hasCallback && timeDue then
      if p.supports_resume && decide (downloaded % (10 * 1024 * 1024) < p.chunk_size) then
        { partBytes := st.partBytes ++ c
          downloaded_size := downloaded
          hashFed := fed
          meta := some ⟨p.url, p.total_size, downloaded, "", "", p.destination⟩
          cbLog := st.cbLog ++ [downloaded] }
      else
        { partBytes := st.partBytes ++ c
          downloaded_size := downloaded
          hashFed := fed
          meta := st.meta
          cbLog := st.cbLog ++ [downloaded] }
    else
      { partBytes := st.partBytes ++ c
        downloaded_size := downloaded
        hashFed := fed
        meta := st.meta
        cbLog := st.cbLog }

/-- Run the streaming loop over a list of delivered chunks, threading the
chunk index into the timing oracle. -/
def runLoop (p : ChunkParams) (timeDue : Nat → Bool) :
    Nat → LoopState → List (List Nat) → LoopState
  | _, st, [] => st
  | i, st, c :: rest => runLoop p timeDue (i + 1) (processChunk p (timeDue i) st c) rest

/-- Structural worker for `chunksOf`: the fuel starts at the list length and
strictly bounds the number of chunks. -/
def chunksOfGo (cs : Nat) : Nat → List Nat → List (List Nat)
  | 0, _ => []
  | _, [] => []
  | fuel + 1, x :: xs => (x :: xs).take cs :: chunksOfGo cs fuel ((x :: xs).drop cs)

/-- `response.iter_content(chunk_size)`: split a body into successive
`chunk_size`-byte pieces (the last may be shorter). -/
def chunksOf (cs : Nat) (l : List Nat) : List (List Nat) :=
  if cs = 0 then [] else chunksOfGo cs l.length l

/-- Observable filesystem actions of the tail of `download_with_resume`,
recording the order of the rename, the checksum comparison, and deletions. -/
inductive Ev where
  | renamed
  | verified
  | mismatch
  | unlinkDest
  | removedPart
  | removedMeta
deriving DecidableEq

/-- `ISODownloader._cleanup_resume_files` (lines 238-249): delete the partial
file and the metadata sidecar, each only if present. -/
def cleanup_resume_files (st : DLState) : DLState × List Ev :=
  (⟨none, st.dest, none⟩,
    (if st.part.isSome then [Ev.removedPart] else [])
      ++ (if st.meta.isSome then [Ev.removedMeta] else []))

/-- Resume eligibility (lines 296-311): with `allow_resume`, an existing
partial file and a loadable sidecar whose `url` matches, `downloaded_size`
is read off the partial file; `can_resume` additionally needs the sidecar
byte count to equal the on-disk size and the HEAD probe to advertise
ranges.  Returns `(downloaded_size, can_resume)`. -/
def resumeCheck (srv : Server) (url : String) (allow_resume : Bool)
    (st : DLState) : Nat × Bool :=
  if allow_resume then
    match st.part, st.meta with
    | some pb, some m =>
      if m.url = url then
        if pb.length = m.downloaded_bytes then (pb.length, srv.supportsRange)
        else (pb.length, false)
      else (0, false)
    | _, _ => (0, false)
  else (0, false)

/-- Whether a `Range: bytes=<n>-` header is sent (lines 313-317):
`can_resume and downloaded_size > 0`. -/
def rangedFlag (srv : Server) (url : String) (allow_resume : Bool)
    (st : DLState) : Bool :=
  let rc := resumeCheck srv url allow_resume st
  rc.2 && decide (0 < rc.1)

/-- The response status for this request: a ranged request is answered `206`
when the server honors ranges and `200` otherwise; a plain request gets
`200` (error statuses are modelled by `reqFail`, see
`download_with_resume`). -/
def responseStatus (srv : Server) (url : String) (allow_resume : Bool)
    (st : DLState) : Nat :=
  if rangedFlag srv url allow_resume st then
    (if srv.honorsRange then 206 else 200)
  else 200

/-- The response body: the suffix from the resume offset for an honored
ranged request, the full content otherwise. -/
def responseBody (srv : Server) (url : String) (allow_resume : Bool)
    (st : DLState) : List Nat :=
  if rangedFlag srv url allow_resume st && srv.honorsRange then
    srv.content.drop (resumeCheck srv url allow_resume st).1
  else srv.content

/-- The accepted-resume test of line 323: `can_resume and
response.status_code == 206`, which selects append mode `ab`; every other
(`200`) response selects truncate mode `wb` and resets `downloaded_size`
and the hash (lines 326-331). -/
def resumedFlag (srv : Server) (url : String) (allow_resume : Bool)
    (st : DLState) : Bool :=
  (resumeCheck srv url allow_resume st).2
    && decide (responseStatus srv url allow_resume st = 206)

/-- The loop state right before the first chunk (lines 287-348): on an
accepted resume the partial file is kept, the counter keeps the on-disk
size, and the hash was seeded from the already-written bytes (lines
307-311); otherwise the partial file is truncated by mode `wb`, the counter
restarts at 0, and the hash is freshly initialized (lines 326-331). -/
def streamInitState (srv : Server) (url : String)
    (expected_sha256 : Option String) (allow_resume : Bool)
    (st : DLState) : LoopState :=
  let rc := resumeCheck srv url allow_resume st
  let hash0 : Option (List Nat) :=
    if optStrSet expected_sha256 then
      if rc.2 then some (st.part.getD []) else some []
    else none
  if resumedFlag srv url allow_resume st then
    ⟨st.part.getD [], rc.1, hash0, st.meta, []⟩
  else
    ⟨[], 0, if optStrSet expected_sha256 then some [] else none, st.meta, []⟩

/-- `total_size` (lines 336-338): the `Content-Length` of this response,
plus the already-downloaded bytes when resuming. -/
def streamTotal (srv : Server) (url : String) (allow_resume : Bool)
    (st : DLState) : Nat :=
  (responseBody srv url allow_resume st).length
    + (if resumedFlag srv url allow_resume st then
        (resumeCheck srv url allow_resume st).1
      else 0)

/-- The streaming phase of `download_with_resume` (lines 287-392): resume
eligibility, hash seeding, the `Range` header decision, the 206/200 branch,
and the chunk loop.  `streamFail = some k` models a network error raised by
`iter_content` after `k` chunks were delivered; the result is the loop
state at that point. -/
def streamState (srv : Server) (url destination : String)
    (expected_sha256 : Option String) (hasCallback : Bool)
    (chunk_size : Nat) (allow_resume : Bool) (timeDue : Nat → Bool)
    (streamFail : Option Nat) (st : DLState) : LoopState :=
  let p : ChunkParams :=
    ⟨url, destination, hasCallback, srv.supportsRange, chunk_size,
      streamTotal srv url allow_resume st⟩
  let chunks := chunksOf chunk_size (responseBody srv url allow_resume st)
  let delivered := match streamFail with
    | some k => chunks.take k
    | none => chunks
  runLoop p timeDue 0 (streamInitState srv url expected_sha256 allow_resume st)
    delivered

/-- The tail of `download_with_resume` after the stream completes
(lines 394-415): rename `<dest>.part` onto the destination, then — when an
expected checksum was supplied and a hash was kept (`if expected_sha256 and
sha256_hash:`) — compare digests case-insensitively; on mismatch unlink the
destination, clean up the resume files and fail; otherwise clean up and
succeed. -/
def finishRun (digest : List Nat → String) (expected_sha256 : Option String)
    (st1 : LoopState) : Bool × DLState × List Ev :=
  let afterRename : DLState := ⟨none, some st1.partBytes, st1.meta⟩
  if optStrSet expected_sha256 && st1.hashFed.isSome then
    let e := expected_sha256.getD ""
    let fed := st1.hashFed.getD []
    if strLower (digest fed) ≠ strLower e then
      let r := cleanup_resume_files ⟨afterRename.part, none, afterRename.meta⟩
      (false, r.1, Ev.renamed :: Ev.mismatch :: Ev.unlinkDest :: r.2)
    else
      let r := cleanup_resume_files afterRename
      (true, r.1, Ev.renamed :: Ev.verified :: r.2)
  else
    let r := cleanup_resume_files afterRename
    (true, r.1, Ev.renamed :: r.2)

/-- `ISODownloader.download_with_resume` (lines 261-423).  `reqFail` models a
`RequestException` raised by `session.get` itself (or a non-2xx status
surfaced through `raise_for_status`, line 333) before the partial file is
touched; `streamFail = some k` models one raised by `iter_content` after `k`
chunks.  Either exception is caught at lines 417-420, which keep the partial
file and sidecar for a later resume and return `False`. -/
def download_with_resume (digest : List Nat → String) (srv : Server)
    (url destination : String) (expected_sha256 : Option String)
    (hasCallback : Bool) (chunk_size : Nat) (allow_resume : Bool)
    (timeDue : Nat → Bool) (reqFail : Bool) (streamFail : Option Nat)
    (st : DLState) : Bool × DLState × List Ev :=
  if reqFail then (false, st, [])
  else
    let st1 := streamState srv url destination expected_sha256 hasCallback
      chunk_size allow_resume timeDue streamFail st
    match streamFail with
    | some _ => (false, ⟨some st1.partBytes, st.dest, st1.meta⟩, [])
    | none => finishRun digest expected_sha256 st1

/-! ## Pause gate (`threading.Event`, downloader.py lines 94-123 and 348-355)

`pause()` clears `pause_event`, `resume()` sets it, and the
`download_with_resume` loop calls `pause_event.wait()` before each chunk is
written.  The interleaving of the worker with `pause`/`resume` calls is
modelled at chunk granularity: a control trace is a list of events, and a
chunk arriving while the gate is cleared blocks — no write, no callback, no
checkpoint happens until the gate is set again. -/

/-- One event seen by the engine: a `pause()` call, a `resume()` call, or the
arrival of a chunk from the network (with its throttle-oracle value). -/
inductive Ctl where
  | pauseCall
  | resumeCall
  | chunkArrival (timeDue : Bool) (c : List Nat)
deriving DecidableEq

/-- The engine state across the control trace: the `pause_event` flag
(`true` = set = not paused, the constructor default at lines 94-95) and the
streaming-loop state. -/
structure EngineState where
  pauseEventSet : Bool
  loop : LoopState
deriving DecidableEq

/-- `ISODownloader.is_paused` (lines 121-123): `not self.pause_event.is_set()`. -/
def is_paused (s : EngineState) : Bool := !s.pauseEventSet

/-- One step of the `download_with_resume` worker against a control event:
`pause()` clears the event (lines 111-114), `resume()` sets it (lines
116-119), and a chunk is processed only when the gate is set —
`self.pause_event.wait()` (line 351) blocks the write otherwise. -/
def ctlStep (p : ChunkParams) (s : EngineState) : Ctl → EngineState
  | .pauseCall => ⟨false, s.loop⟩
  | .resumeCall => ⟨true, s.loop⟩
  | .chunkArrival td c =>
    if s.pauseEventSet then ⟨true, processChunk p td s.loop c⟩ else s

/-- Run the worker over a control trace. -/
def ctlRun (p : ChunkParams) (s : EngineState) (evs : List Ctl) : EngineState :=
  evs.foldl (ctlStep p) s

/-- The body of the plain `ISODownloader.download` loop (lines 471-498):
identical chunk handling but with **no** `pause_event.wait()` and no resume
metadata persistence. -/
def downloadProcessChunk (hasCallback : Bool) (timeDue : Bool)
    (st : LoopState) (c : List Nat) : LoopState :=
  if c = [] then st
  else
    { partBytes := st.partBytes ++ c
      downloaded_size := st.downloaded_size + c.length
      hashFed := st.hashFed.map (fun h => h ++ c)
      meta := st.meta
      cbLog := if hasCallback && timeDue then st.cbLog ++ [st.downloaded_size + c.length]
               else st.cbLog }

/-- One step of the plain `download` worker: chunks are written regardless of
the pause gate, because its loop never consults `pause_event`. -/
def downloadCtlStep (hasCallback : Bool) (s : EngineState) : Ctl → EngineState
  | .pauseCall => ⟨false, s.loop⟩
  | .resumeCall => ⟨true, s.loop⟩
  | .chunkArrival td c => ⟨s.pauseEventSet, downloadProcessChunk hasCallback td s.loop c⟩


/-! ## Lemma kit -/

theorem processChunk_partBytes (p : ChunkParams) (td : Bool) (st : LoopState)
    (c : List Nat) : (processChunk p td st c).partBytes = st.partBytes ++ c := by
  simp only [processChunk]
  repeat' split
  all_goals simp_all

theorem processChunk_hashFed (p : ChunkParams) (td : Bool) (st : LoopState)
    (c : List Nat) :
    (processChunk p td st c).hashFed = st.hashFed.map (fun h => h ++ c) := by
  simp only [processChunk]
  repeat' split
  all_goals (try subst c) <;> cases st.hashFed <;> simp_all

theorem processChunk_downloaded (p : ChunkParams) (td : Bool) (st : LoopState)
    (c : List Nat) :
    (processChunk p td st c).downloaded_size = st.downloaded_size + c.length := by
  simp only [processChunk]
  repeat' split
  all_goals simp_all

theorem processChunk_meta_no_callback (p : ChunkParams) (hp : p.hasCallback = false)
    (td : Bool) (st : LoopState) (c : List Nat) :
    (processChunk p td st c).meta = st.meta := by
  simp only [processChunk]
  repeat' split
  all_goals simp_all

theorem processChunk_meta_isSome (p : ChunkParams) (td : Bool) (st : LoopState)
    (c : List Nat) (h : st.meta.isSome) :
    (processChunk p td st c).meta.isSome := by
  simp only [processChunk]
  repeat' split
  all_goals simp_all

theorem runLoop_partBytes (p : ChunkParams) (td : Nat → Bool) :
    ∀ (l : List (List Nat)) (i : Nat) (st : LoopState),
      (runLoop p td i st l).partBytes = st.partBytes ++ l.flatten
  | [], _, st => by simp [runLoop]
  | c :: rest, i, st => by
    rw [runLoop, runLoop_partBytes p td rest, processChunk_partBytes]
    simp

theorem runLoop_hashFed (p : ChunkParams) (td : Nat → Bool) :
    ∀ (l : List (List Nat)) (i : Nat) (st : LoopState),
      (runLoop p td i st l).hashFed = st.hashFed.map (fun h => h ++ l.flatten)
  | [], _, st => by cases h : st.hashFed <;> simp [runLoop, h]
  | c :: rest, i, st => by
    rw [runLoop, runLoop_hashFed p td rest, processChunk_hashFed]
    cases st.hashFed <;> simp

theorem runLoop_meta_no_callback (p : ChunkParams) (hp : p.hasCallback = false)
    (td : Nat → Bool) :
    ∀ (l : List (List Nat)) (i : Nat) (st : LoopState),
      (runLoop p td i st l).meta = st.meta
  | [], _, _ => rfl
  | c :: rest, i, st => by
    rw [runLoop, runLoop_meta_no_callback p hp td rest,
      processChunk_meta_no_callback p hp]

theorem runLoop_meta_isSome (p : ChunkParams) (td : Nat → Bool) :
    ∀ (l : List (List Nat)) (i : Nat) (st : LoopState),
      st.meta.isSome → (runLoop p td i st l).meta.isSome
  | [], _, _, h => h
  | c :: rest, i, st, h =>
    runLoop_meta_isSome p td rest (i + 1) _ (processChunk_meta_isSome p _ st c h)

theorem chunksOfGo_flatten (cs : Nat) (hcs : 0 < cs) :
    ∀ (fuel : Nat) (l : List Nat), l.length ≤ fuel →
      (chunksOfGo cs fuel l).flatten = l
  | 0, [], _ => rfl
  | 0, x :: xs, h => by simp at h
  | fuel + 1, [], _ => rfl
  | fuel + 1, x :: xs, h => by
    have hlen : ((x :: xs).drop cs).length ≤ fuel := by
      simp only [List.length_drop, List.length_cons]
      simp only [List.length_cons] at h
      omega
    rw [chunksOfGo, List.flatten_cons,
      chunksOfGo_flatten cs hcs fuel ((x :: xs).drop cs) hlen,
      List.take_append_drop]

theorem chunksOf_flatten (cs : Nat) (hcs : 0 < cs) (l : List Nat) :
    (chunksOf cs l).flatten = l := by
  unfold chunksOf
  rw [if_neg (Nat.pos_iff_ne_zero.mp hcs)]
  exact chunksOfGo_flatten cs hcs l.length l le_rfl

theorem streamInitState_hashFed (srv : Server) (url : String)
    (expected_sha256 : Option String) (allow_resume : Bool) (st : DLState)
    (he : optStrSet expected_sha256 = true) :
    (streamInitState srv url expected_sha256 allow_resume st).hashFed
      = some (streamInitState srv url expected_sha256 allow_resume st).partBytes := by
  unfold streamInitState
  simp only [he, if_true]
  split
  · rename_i hres
    have h2 : (resumeCheck srv url allow_resume st).2 = true :=
      (Bool.and_eq_true _ _ |>.mp hres).1
    simp [h2]
  · simp

/-- When an expected checksum is supplied (and nonempty), the bytes fed to
the running hash are exactly the bytes in the partial file: the hash is
seeded from the already-written bytes on resume and reset together with the
truncation on restart. -/
theorem streamState_hashFed_eq_partBytes (srv : Server) (url destination : String)
    (expected_sha256 : Option String) (hasCallback : Bool) (chunk_size : Nat)
    (allow_resume : Bool) (timeDue : Nat → Bool) (streamFail : Option Nat)
    (st : DLState) (he : optStrSet expected_sha256 = true) :
    (streamState srv url destination expected_sha256 hasCallback chunk_size
        allow_resume timeDue streamFail st).hashFed
      = some ((streamState srv url destination expected_sha256 hasCallback
          chunk_size allow_resume timeDue streamFail st).partBytes) := by
  unfold streamState
  rw [runLoop_hashFed, runLoop_partBytes,
    streamInitState_hashFed srv url expected_sha256 allow_resume st he]
  simp

theorem streamInitState_meta (srv : Server) (url : String)
    (expected_sha256 : Option String) (allow_resume : Bool) (st : DLState) :
    (streamInitState srv url expected_sha256 allow_resume st).meta = st.meta := by
  unfold streamInitState
  dsimp only
  repeat' split
  all_goals rfl

theorem resumeCheck_no_part (srv : Server) (url : String) (allow_resume : Bool)
    (d : Option (List Nat)) (mo : Option ResumeMetadata) :
    resumeCheck srv url allow_resume ⟨none, d, mo⟩ = (0, false) := by
  unfold resumeCheck
  cases allow_resume <;> cases mo <;> rfl

theorem resumeCheck_valid (srv : Server) (url : String) (st : DLState)
    (pb : List Nat) (m : ResumeMetadata) (hpart : st.part = some pb)
    (hmeta : st.meta = some m) (hurl : m.url = url)
    (hlen : pb.length = m.downloaded_bytes) :
    resumeCheck srv url true st = (pb.length, srv.supportsRange) := by
  unfold resumeCheck
  simp [hpart, hmeta, hurl, hlen]

/-- When the engine is not going to resume (`can_resume` is false), the run
is a plain full GET: status 200, full body, truncated partial file, counter
at zero and a freshly initialized hash. -/
theorem streamState_not_resumable (srv : Server) (url destination : String)
    (expected_sha256 : Option String) (hasCallback : Bool) (chunk_size : Nat)
    (allow_resume : Bool) (timeDue : Nat → Bool) (streamFail : Option Nat)
    (st : DLState) (h2 : (resumeCheck srv url allow_resume st).2 = false) :
    streamState srv url destination expected_sha256 hasCallback chunk_size
        allow_resume timeDue streamFail st
      = runLoop ⟨url, destination, hasCallback, srv.supportsRange, chunk_size,
            srv.content.length⟩ timeDue 0
          ⟨[], 0, (if optStrSet expected_sha256 then some [] else none), st.meta, []⟩
          (match streamFail with
            | some k => (chunksOf chunk_size srv.content).take k
            | none => chunksOf chunk_size srv.content) := by
  have hres : resumedFlag srv url allow_resume st = false := by
    unfold resumedFlag
    simp [h2]
  unfold streamState streamTotal responseBody rangedFlag streamInitState
  simp [h2, hres]

/-- With a valid resume record (matching URL and byte count), a nonempty
partial file, a range-advertising server and an honored ranged request, the
stream appends the range body to the kept partial bytes, with the hash
seeded from them. -/
theorem streamState_resumed (srv : Server) (url destination : String)
    (expected_sha256 : Option String) (hasCallback : Bool) (chunk_size : Nat)
    (timeDue : Nat → Bool) (streamFail : Option Nat) (st : DLState)
    (pb : List Nat) (m : ResumeMetadata) (hpart : st.part = some pb)
    (hmeta : st.meta = some m) (hurl : m.url = url)
    (hlen : pb.length = m.downloaded_bytes) (hpos : 0 < pb.length)
    (hsr : srv.supportsRange = true) (hhr : srv.honorsRange = true) :
    streamState srv url destination expected_sha256 hasCallback chunk_size
        true timeDue streamFail st
      = runLoop ⟨url, destination, hasCallback, srv.supportsRange, chunk_size,
            (srv.content.drop pb.length).length + pb.length⟩ timeDue 0
          ⟨pb, pb.length,
            (if optStrSet expected_sha256 then some pb else none), st.meta, []⟩
          (match streamFail with
            | some k => (chunksOf chunk_size (srv.content.drop pb.length)).take k
            | none => chunksOf chunk_size (srv.content.drop pb.length)) := by
  have hrc := resumeCheck_valid srv url st pb m hpart hmeta hurl hlen
  have hres : resumedFlag srv url true st = true := by
    unfold resumedFlag responseStatus rangedFlag
    simp [hrc, hsr, hhr, hpos]
  unfold streamState streamTotal responseBody rangedFlag streamInitState
  simp [hrc, hsr, hhr, hpos, hpart, hres]

/-- The final phase on a verified checksum: success, the verified bytes at
the destination, and no partial or sidecar files left. -/
theorem finishRun_verified (digest : List Nat → String) (e : String)
    (st1 : LoopState) (fed : List Nat) (he : e.isEmpty = false)
    (hfed : st1.hashFed = some fed)
    (hm : strLower (digest fed) = strLower e) :
    finishRun digest (some e) st1
      = (true, ⟨none, some st1.partBytes, none⟩,
          Ev.renamed :: Ev.verified
            :: (if st1.meta.isSome then [Ev.removedMeta] else [])) := by
  unfold finishRun cleanup_resume_files
  simp [optStrSet, he, hfed, hm]

/-- The final phase on a checksum mismatch: failure and no destination,
partial, or sidecar files left. -/
theorem finishRun_mismatch (digest : List Nat → String) (e : String)
    (st1 : LoopState) (fed : List Nat) (he : e.isEmpty = false)
    (hfed : st1.hashFed = some fed)
    (hm : ¬strLower (digest fed) = strLower e) :
    finishRun digest (some e) st1
      = (false, ⟨none, none, none⟩,
          Ev.renamed :: Ev.mismatch :: Ev.unlinkDest
            :: (if st1.meta.isSome then [Ev.removedMeta] else [])) := by
  unfold finishRun cleanup_resume_files
  simp [optStrSet, he, hfed, hm]

/-- The success flag and the final filesystem state of the post-stream phase
depend only on the partial-file bytes and the hash stream, never on the
sidecar record carried through the loop. -/
theorem finishRun_fst_snd_eq (digest : List Nat → String)
    (expected_sha256 : Option String) (st1 st2 : LoopState)
    (hp : st1.partBytes = st2.partBytes) (hh : st1.hashFed = st2.hashFed) :
    (finishRun digest expected_sha256 st1).1 = (finishRun digest expected_sha256 st2).1
    ∧ (finishRun digest expected_sha256 st1).2.1
        = (finishRun digest expected_sha256 st2).2.1 := by
  obtain ⟨p1, d1, h1, m1, c1⟩ := st1
  obtain ⟨p2, d2, h2, m2, c2⟩ := st2
  simp only at hp hh
  subst hp
  subst hh
  constructor <;>
  · by_cases hc : (optStrSet expected_sha256 && h1.isSome) = true <;>
      by_cases hm : strLower (digest (h1.getD [])) = strLower (expected_sha256.getD "") <;>
      simp [finishRun, cleanup_resume_files, hc, hm]

/-! ## Claims -/

/-- C7: for every call to `download_with_resume` in which a network-layer
error occurs during the request or while streaming the body, the call
returns failure (a boolean result, not a raised exception), and both the
partial file and the ResumeRecord sidecar that existed at the moment of the
error remain on disk unchanged (the handler at downloader.py lines 417-420
performs no deletion: the returned state is exactly the pre-call state for a
request error, and exactly the loop state reached after the delivered chunks
for a stream error, with the destination untouched and no removal events). -/
theorem c7_network_error_keeps_resume_state :
    (∀ (digest : List Nat → String) (srv : Server) (url destination : String)
        (expected_sha256 : Option String) (hasCallback : Bool) (chunk_size : Nat)
        (allow_resume : Bool) (timeDue : Nat → Bool) (streamFail : Option Nat)
        (st : DLState),
      download_with_resume digest srv url destination expected_sha256 hasCallback
          chunk_size allow_resume timeDue true streamFail st
        = (false, st, []))
    ∧ (∀ (digest : List Nat → String) (srv : Server) (url destination : String)
        (expected_sha256 : Option String) (hasCallback : Bool) (chunk_size : Nat)
        (allow_resume : Bool) (timeDue : Nat → Bool) (k : Nat) (st : DLState),
      download_with_resume digest srv url destination expected_sha256 hasCallback
          chunk_size allow_resume timeDue false (some k) st
        = (false,
            ⟨some (streamState srv url destination expected_sha256 hasCallback
                chunk_size allow_resume timeDue (some k) st).partBytes,
              st.dest,
              (streamState srv url destination expected_sha256 hasCallback
                chunk_size allow_resume timeDue (some k) st).meta⟩,
            [])) := by
  constructor
  · intro digest srv url destination expected_sha256 hasCallback chunk_size
      allow_resume timeDue streamFail st
    rfl
  · intro digest srv url destination expected_sha256 hasCallback chunk_size
      allow_resume timeDue k st
    rfl

/-- C9 counterexample: the sidecar and partial paths are *not* produced by
appending to the full destination name.  `Path.with_suffix` replaces the
final extension, so `ubuntu.iso` yields `ubuntu.resume` and `ubuntu.part`,
not `ubuntu.iso.resume` and `ubuntu.iso.part` as the claim states. -/
theorem c9_counterexample :
    get_metadata_path "ubuntu.iso" = "ubuntu.resume"
    ∧ ¬get_metadata_path "ubuntu.iso" = "ubuntu.iso.resume"
    ∧ part_file_path "ubuntu.iso" = "ubuntu.part"
    ∧ ¬part_file_path "ubuntu.iso" = "ubuntu.iso.part" := by
  refine ⟨by decide, by decide, by decide, by decide⟩

/-- C9 amended: both side files are produced by `with_suffix`, which
*replaces* the destination name's final extension with `.resume` / `.part`
(appending only when the name has no extension): `ubuntu.iso` yields
`ubuntu.resume` and `ubuntu.part`, while an extensionless `README` yields
`README.resume`. -/
theorem c9_sidecar_naming :
    (∀ destination : String,
      get_metadata_path destination = withSuffix destination ".resume"
      ∧ part_file_path destination = withSuffix destination ".part")
    ∧ (∀ destination : String, pySuffix destination = "" →
      get_metadata_path destination = destination ++ ".resume"
      ∧ part_file_path destination = destination ++ ".part")
    ∧ get_metadata_path "ubuntu.iso" = "ubuntu.resume"
    ∧ part_file_path "ubuntu.iso" = "ubuntu.part"
    ∧ get_metadata_path "README" = "README.resume" := by
  refine ⟨fun _ => ⟨rfl, rfl⟩, fun destination h => ?_, by decide, by decide, by decide⟩
  unfold get_metadata_path part_file_path withSuffix
  simp [h, resumeExtension, partExtension]

/-- C9 amended witness at an extensionless name. -/
theorem c9_sidecar_naming_witness :
    pySuffix "fixture" = ""
    ∧ get_metadata_path "fixture" = "fixture" ++ ".resume"
    ∧ part_file_path "fixture" = "fixture" ++ ".part" :=
  ⟨by decide, (c9_sidecar_naming.2.1 "fixture" (by decide)).1,
    (c9_sidecar_naming.2.1 "fixture" (by decide)).2⟩

/-- C10: when no progress callback is supplied, no ResumeRecord sidecar is
ever written during the transfer — the `_save_resume_metadata` call sits
inside the progress-callback branch (downloader.py lines 363-392), so the
loop preserves the sidecar slot, and an interrupted transfer leaves the
sidecar exactly as it was before the call. -/
theorem c10_no_callback_no_checkpoint :
    (∀ (p : ChunkParams), p.hasCallback = false →
      ∀ (timeDue : Nat → Bool) (i : Nat) (st : LoopState) (l : List (List Nat)),
        (runLoop p timeDue i st l).meta = st.meta)
    ∧ (∀ (digest : List Nat → String) (srv : Server) (url destination : String)
        (expected_sha256 : Option String) (chunk_size : Nat) (allow_resume : Bool)
        (timeDue : Nat → Bool) (k : Nat) (st : DLState),
      (download_with_resume digest srv url destination expected_sha256 false
          chunk_size allow_resume timeDue false (some k) st).2.1.meta = st.meta) := by
  constructor
  · exact fun p hp timeDue i st l => runLoop_meta_no_callback p hp timeDue l i st
  · intro digest srv url destination expected_sha256 chunk_size allow_resume
      timeDue k st
    show (streamState srv url destination expected_sha256 false chunk_size
        allow_resume timeDue (some k) st).meta = st.meta
    unfold streamState
    rw [runLoop_meta_no_callback _ rfl, streamInitState_meta]

/-- C10 witness: a concrete interrupted callback-free transfer leaves the
(absent) sidecar absent. -/
theorem c10_no_callback_no_checkpoint_witness :
    (runLoop ⟨"u", "d", false, true, 4, 9⟩ (fun _ => true) 0
        ⟨[], 0, none, none, []⟩ [[1, 2], [3]]).meta = none
    ∧ (download_with_resume (fun _ => "x") ⟨[1, 2, 3], true, true⟩ "u" "d"
        (some "x") false 1 true (fun _ => true) false (some 2)
        ⟨none, none, none⟩).2.1.meta = none :=
  ⟨c10_no_callback_no_checkpoint.1 ⟨"u", "d", false, true, 4, 9⟩ rfl
      (fun _ => true) 0 ⟨[], 0, none, none, []⟩ [[1, 2], [3]],
    c10_no_callback_no_checkpoint.2 (fun _ => "x") ⟨[1, 2, 3], true, true⟩
      "u" "d" (some "x") 1 true (fun _ => true) 2 ⟨none, none, none⟩⟩

theorem ctlRun_paused (p : ChunkParams) :
    ∀ (evs : List Ctl) (s : EngineState), s.pauseEventSet = false →
      (∀ e ∈ evs, e ≠ Ctl.resumeCall) →
      (ctlRun p s evs).loop = s.loop ∧ (ctlRun p s evs).pauseEventSet = false
  | [], s, hp, _ => ⟨rfl, hp⟩
  | e :: rest, s, hp, hno => by
    have hrest : ∀ e' ∈ rest, e' ≠ Ctl.resumeCall :=
      fun e' h => hno e' (List.mem_cons_of_mem _ h)
    have hstep : ctlRun p s (e :: rest) = ctlRun p (ctlStep p s e) rest := rfl
    cases e with
    | pauseCall =>
      have ih := ctlRun_paused p rest ⟨false, s.loop⟩ rfl hrest
      rw [hstep]
      exact ⟨ih.1, ih.2⟩
    | resumeCall => exact absurd rfl (hno _ (List.mem_cons_self _ _))
    | chunkArrival td c =>
      have hgate : ctlStep p s (Ctl.chunkArrival td c) = s := by
        simp [ctlStep, hp]
      rw [hstep, hgate]
      exact ctlRun_paused p rest s hp hrest

/-- C4 amended: for every transfer driven by `download_with_resume`, between
a `pause()` call and the next `resume()` call no bytes are written to the
partial file, no progress callback is invoked, and no resume-metadata
checkpoint is persisted: the worker waits on the gate before each chunk
write, `pause()` clears the gate, `resume()` sets it again.  (The plain
`download` loop at downloader.py lines 471-498 never consults the gate —
see the counterexample.) -/
theorem c4_pause_gate :
    (∀ (p : ChunkParams) (s : EngineState),
      (ctlStep p s Ctl.pauseCall).pauseEventSet = false)
    ∧ (∀ (p : ChunkParams) (s : EngineState),
      (ctlStep p s Ctl.resumeCall).pauseEventSet = true)
    ∧ (∀ (p : ChunkParams) (s : EngineState) (evs : List Ctl),
      s.pauseEventSet = false → (∀ e ∈ evs, e ≠ Ctl.resumeCall) →
      (ctlRun p s evs).loop.partBytes = s.loop.partBytes
      ∧ (ctlRun p s evs).loop.cbLog = s.loop.cbLog
      ∧ (ctlRun p s evs).loop.meta = s.loop.meta
      ∧ is_paused (ctlRun p s evs) = true) := by
  refine ⟨fun p s => rfl, fun p s => rfl, fun p s evs hp hno => ?_⟩
  have h := ctlRun_paused p evs s hp hno
  refine ⟨by rw [h.1], by rw [h.1], by rw [h.1], ?_⟩
  unfold is_paused
  rw [h.2]
  rfl

/-- C4 witness: a paused engine receiving two chunks and another `pause()`
neither writes, logs a callback, nor checkpoints. -/
theorem c4_pause_gate_witness :
    (ctlRun ⟨"u", "d", true, true, 4, 9⟩
        ⟨false, ⟨[1], 1, none, none, []⟩⟩
        [Ctl.chunkArrival true [2, 3], Ctl.pauseCall,
          Ctl.chunkArrival true [4]]).loop.partBytes = [1]
    ∧ (ctlRun ⟨"u", "d", true, true, 4, 9⟩
        ⟨false, ⟨[1], 1, none, none, []⟩⟩
        [Ctl.chunkArrival true [2, 3], Ctl.pauseCall,
          Ctl.chunkArrival true [4]]).loop.cbLog = []
    ∧ (ctlRun ⟨"u", "d", true, true, 4, 9⟩
        ⟨false, ⟨[1], 1, none, none, []⟩⟩
        [Ctl.chunkArrival true [2, 3], Ctl.pauseCall,
          Ctl.chunkArrival true [4]]).loop.meta = none
    ∧ is_paused (ctlRun ⟨"u", "d", true, true, 4, 9⟩
        ⟨false, ⟨[1], 1, none, none, []⟩⟩
        [Ctl.chunkArrival true [2, 3], Ctl.pauseCall,
          Ctl.chunkArrival true [4]]) = true :=
  c4_pause_gate.2.2 ⟨"u", "d", true, true, 4, 9⟩
    ⟨false, ⟨[1], 1, none, none, []⟩⟩
    [Ctl.chunkArrival true [2, 3], Ctl.pauseCall, Ctl.chunkArrival true [4]]
    rfl (by decide)

/-- C4 counterexample: the claim quantifies over *every* active transfer,
but the plain `download` loop (downloader.py lines 471-498, one of the
claim's cited regions) contains no `pause_event.wait()`: with the engine
paused (`is_paused` true), an arriving chunk is still written to the file,
so "no bytes are written after `pause()` until `resume()`" is false for
transfers driven by `download`. -/
theorem c4_counterexample :
    is_paused ⟨false, ⟨[], 0, none, none, []⟩⟩ = true
    ∧ (downloadCtlStep false ⟨false, ⟨[], 0, none, none, []⟩⟩
        (Ctl.chunkArrival false [1])).loop.partBytes = [1] := by
  refine ⟨rfl, rfl⟩

theorem mirror_entry_fst (stats : String → Option MirrorStats) (url : String) :
    (mirror_entry stats url).1 = url := by
  unfold mirror_entry
  cases stats url <;> rfl

theorem mirror_entry_eq (stats : String → Option MirrorStats) (url : String) :
    mirror_entry stats url
      = (url, effective_success_rate stats url, effective_avg_time stats url) := by
  unfold mirror_entry effective_success_rate effective_avg_time
  cases stats url <;> rfl

/-- The Ledger contents of C8's example: 90% success for `http://a`
(9 of 10), 60% for `http://b` (3 of 5), no entry for `http://c`. -/
def c8ExampleStats : String → Option MirrorStats := fun u =>
  if u = "http://a" then some ⟨"http://a", 9, 1, 900, none, none⟩
  else if u = "http://b" then some ⟨"http://b", 3, 2, 300, none, none⟩
  else none

/-- C8: `rank_mirrors` returns the URLs sorted by recorded success rate
descending and, among equal success rates, by average response time
ascending, with an absent entry treated as 100% success and 0 latency; in
particular three URLs with success rates 90%, 60% and no entry come out
ordered [untested, 90%, 60%]. -/
theorem c8_rank_by_health (stats : String → Option MirrorStats)
    (urls : List String) :
    (rank_mirrors stats urls).Perm urls
    ∧ (rank_mirrors stats urls).Pairwise (fun u v =>
        effective_success_rate stats v < effective_success_rate stats u
        ∨ (effective_success_rate stats u = effective_success_rate stats v
            ∧ effective_avg_time stats u ≤ effective_avg_time stats v))
    ∧ rank_mirrors c8ExampleStats ["http://a", "http://b", "http://c"]
        = ["http://c", "http://a", "http://b"] := by
  refine ⟨?_, ?_, ?_⟩
  · have h1 := (List.perm_insertionSort rankLe (urls.map (mirror_entry stats))).map
      Prod.fst
    have h2 : (urls.map (mirror_entry stats)).map Prod.fst = urls := by
      rw [List.map_map]
      have h3 : urls.map (Prod.fst ∘ mirror_entry stats) = urls.map id :=
        List.map_congr_left (fun u _ => mirror_entry_fst stats u)
      rw [h3, List.map_id]
    rw [h2] at h1
    unfold rank_mirrors
    exact h1
  · have hs := List.sorted_insertionSort rankLe (urls.map (mirror_entry stats))
    have hmem : ∀ x ∈ (urls.map (mirror_entry stats)).insertionSort rankLe,
        x = mirror_entry stats x.1 := by
      intro x hx
      rw [List.mem_insertionSort] at hx
      obtain ⟨u, hu, rfl⟩ := List.mem_map.mp hx
      rw [mirror_entry_fst]
    have key : ∀ u v : String,
        rankLe (mirror_entry stats u) (mirror_entry stats v) →
        effective_success_rate stats v < effective_success_rate stats u
        ∨ (effective_success_rate stats u = effective_success_rate stats v
            ∧ effective_avg_time stats u ≤ effective_avg_time stats v) := by
      intro u v h
      rw [mirror_entry_eq stats u, mirror_entry_eq stats v] at h
      exact h
    unfold rank_mirrors
    rw [List.pairwise_map]
    refine hs.imp_of_mem ?_
    intro a b ha hb hr
    rw [hmem a ha, hmem b hb] at hr
    exact key a.1 b.1 hr
  · simp +decide [rank_mirrors, c8ExampleStats, mirror_entry,
      MirrorStats.success_rate, MirrorStats.average_response_time_ms,
      List.insertionSort, List.orderedInsert, rankLe]
    norm_num [List.orderedInsert, rankLe]

/-- When the 206 branch is not taken and the body is the full content, the
stream is a restart: truncated partial file, counter at zero, fresh hash. -/
theorem streamState_restart (srv : Server) (url destination : String)
    (expected_sha256 : Option String) (hasCallback : Bool) (chunk_size : Nat)
    (allow_resume : Bool) (timeDue : Nat → Bool) (streamFail : Option Nat)
    (st : DLState) (h1 : resumedFlag srv url allow_resume st = false)
    (h2 : (rangedFlag srv url allow_resume st && srv.honorsRange) = false) :
    streamState srv url destination expected_sha256 hasCallback chunk_size
        allow_resume timeDue streamFail st
      = runLoop ⟨url, destination, hasCallback, srv.supportsRange, chunk_size,
            srv.content.length⟩ timeDue 0
          ⟨[], 0, (if optStrSet expected_sha256 then some [] else none), st.meta, []⟩
          (match streamFail with
            | some k => (chunksOf chunk_size srv.content).take k
            | none => chunksOf chunk_size srv.content) := by
  unfold streamState streamTotal responseBody streamInitState
  simp [h1, h2]

/-- A complete, unfailed run that restarts from byte zero against a matching
checksum succeeds with the full content at the destination and no partial or
sidecar files left. -/
theorem run_restart_success (digest : List Nat → String) (srv : Server)
    (url destination : String) (e : String) (hasCallback : Bool)
    (chunk_size : Nat) (allow_resume : Bool) (timeDue : Nat → Bool)
    (st : DLState) (hne : e.isEmpty = false) (hcs : 0 < chunk_size)
    (hmatch : strLower (digest srv.content) = strLower e)
    (h1 : resumedFlag srv url allow_resume st = false)
    (h2 : (rangedFlag srv url allow_resume st && srv.honorsRange) = false) :
    (download_with_resume digest srv url destination (some e) hasCallback
        chunk_size allow_resume timeDue false none st).1 = true
    ∧ (download_with_resume digest srv url destination (some e) hasCallback
        chunk_size allow_resume timeDue false none st).2.1
      = ⟨none, some srv.content, none⟩ := by
  have he' : optStrSet (some e) = true := by simp [optStrSet, hne]
  have hst1 := streamState_restart srv url destination (some e) hasCallback
    chunk_size allow_resume timeDue none st h1 h2
  have hpartB : (streamState srv url destination (some e) hasCallback chunk_size
      allow_resume timeDue none st).partBytes = srv.content := by
    rw [hst1, runLoop_partBytes]
    simp [chunksOf_flatten chunk_size hcs]
  have hfed : (streamState srv url destination (some e) hasCallback chunk_size
      allow_resume timeDue none st).hashFed = some srv.content := by
    rw [streamState_hashFed_eq_partBytes srv url destination (some e) hasCallback
      chunk_size allow_resume timeDue none st he', hpartB]
  have hrun : download_with_resume digest srv url destination (some e) hasCallback
      chunk_size allow_resume timeDue false none st
      = finishRun digest (some e)
          (streamState srv url destination (some e) hasCallback chunk_size
            allow_resume timeDue none st) := rfl
  rw [hrun, finishRun_verified digest e _ srv.content hne hfed hmatch, hpartB]
  exact ⟨rfl, rfl⟩

/-- C1: resuming from a consistent partial file against a byte-identical,
range-honoring source appends from the recorded offset with the hash seeded
from the already-written bytes, so the run succeeds and leaves exactly the
full content at the destination — the same outcome (hence the same
checksum) as a single uninterrupted download of the same content. -/
theorem c1_resume_equals_uninterrupted (digest : List Nat → String)
    (srv : Server) (url destination : String) (hasCallback : Bool)
    (chunk_size : Nat) (timeDue timeDue' : Nat → Bool) (pb : List Nat)
    (m : ResumeMetadata) (d d' : Option (List Nat))
    (hsr : srv.supportsRange = true) (hhr : srv.honorsRange = true)
    (hurl : m.url = url) (hlen : pb.length = m.downloaded_bytes)
    (hpos : 0 < pb.length) (hpref : pb = srv.content.take pb.length)
    (hcs : 0 < chunk_size) (hne : (digest srv.content).isEmpty = false) :
    (download_with_resume digest srv url destination (some (digest srv.content))
        hasCallback chunk_size true timeDue false none
        ⟨some pb, d, some m⟩).1 = true
    ∧ (download_with_resume digest srv url destination (some (digest srv.content))
        hasCallback chunk_size true timeDue false none
        ⟨some pb, d, some m⟩).2.1 = ⟨none, some srv.content, none⟩
    ∧ (download_with_resume digest srv url destination (some (digest srv.content))
        hasCallback chunk_size true timeDue' false none
        ⟨none, d', none⟩).1 = true
    ∧ (download_with_resume digest srv url destination (some (digest srv.content))
        hasCallback chunk_size true timeDue' false none
        ⟨none, d', none⟩).2.1 = ⟨none, some srv.content, none⟩ := by
  have he' : optStrSet (some (digest srv.content)) = true := by
    simp [optStrSet, hne]
  have hsplit : srv.content = pb ++ srv.content.drop pb.length := by
    conv_lhs => rw [← List.take_append_drop pb.length srv.content]
    rw [← hpref]
  have hst1 := streamState_resumed srv url destination
    (some (digest srv.content)) hasCallback chunk_size timeDue none
    ⟨some pb, d, some m⟩ pb m rfl rfl hurl hlen hpos hsr hhr
  have hpartB : (streamState srv url destination (some (digest srv.content))
      hasCallback chunk_size true timeDue none ⟨some pb, d, some m⟩).partBytes
      = srv.content := by
    rw [hst1, runLoop_partBytes]
    simp only [chunksOf_flatten chunk_size hcs]
    exact hsplit.symm
  have hfed : (streamState srv url destination (some (digest srv.content))
      hasCallback chunk_size true timeDue none ⟨some pb, d, some m⟩).hashFed
      = some srv.content := by
    rw [streamState_hashFed_eq_partBytes srv url destination
      (some (digest srv.content)) hasCallback chunk_size true timeDue none
      ⟨some pb, d, some m⟩ he', hpartB]
  have hrun : download_with_resume digest srv url destination
      (some (digest srv.content)) hasCallback chunk_size true timeDue false none
      ⟨some pb, d, some m⟩
      = finishRun digest (some (digest srv.content))
          (streamState srv url destination (some (digest srv.content))
            hasCallback chunk_size true timeDue none ⟨some pb, d, some m⟩) := rfl
  have hfresh := run_restart_success digest srv url destination
    (digest srv.content) hasCallback chunk_size true timeDue'
    ⟨none, d', none⟩ hne hcs rfl
    (by unfold resumedFlag
        rw [resumeCheck_no_part]
        simp)
    (by unfold rangedFlag
        rw [resumeCheck_no_part]
        simp)
  rw [hrun, finishRun_verified digest (digest srv.content) _ srv.content hne
    hfed rfl, hpartB]
  exact ⟨rfl, rfl, hfresh.1, hfresh.2⟩

/-- C1 witness: a five-byte source resumed from a two-byte prefix. -/
theorem c1_resume_equals_uninterrupted_witness :
    (download_with_resume (fun _ => "x") ⟨[1, 2, 3, 4, 5], true, true⟩ "u" "d"
        (some "x") false 2 true (fun _ => false) false none
        ⟨some [1, 2], none, some ⟨"u", 5, 2, "", "", "d"⟩⟩).1 = true
    ∧ (download_with_resume (fun _ => "x") ⟨[1, 2, 3, 4, 5], true, true⟩ "u" "d"
        (some "x") false 2 true (fun _ => false) false none
        ⟨some [1, 2], none, some ⟨"u", 5, 2, "", "", "d"⟩⟩).2.1
      = ⟨none, some [1, 2, 3, 4, 5], none⟩
    ∧ (download_with_resume (fun _ => "x") ⟨[1, 2, 3, 4, 5], true, true⟩ "u" "d"
        (some "x") false 2 true (fun _ => false) false none
        ⟨none, none, none⟩).1 = true
    ∧ (download_with_resume (fun _ => "x") ⟨[1, 2, 3, 4, 5], true, true⟩ "u" "d"
        (some "x") false 2 true (fun _ => false) false none
        ⟨none, none, none⟩).2.1 = ⟨none, some [1, 2, 3, 4, 5], none⟩ :=
  c1_resume_equals_uninterrupted (fun _ => "x") ⟨[1, 2, 3, 4, 5], true, true⟩
    "u" "d" false 2 (fun _ => false) (fun _ => false) [1, 2]
    ⟨"u", 5, 2, "", "", "d"⟩ none none rfl rfl rfl (by decide) (by decide)
    (by decide) (by decide) (by decide)

/-- C6: when the engine issues a ranged GET (the resume record is valid and
nonempty and the HEAD probe advertised ranges) but the server answers 200
instead of 206, the transfer restarts from byte 0 — counter reset, hash
reinitialized, partial file truncated — and still produces the complete
content at the destination. -/
theorem c6_ranged_200_restarts (digest : List Nat → String) (srv : Server)
    (url destination : String) (hasCallback : Bool) (chunk_size : Nat)
    (timeDue : Nat → Bool) (pb : List Nat) (m : ResumeMetadata)
    (d : Option (List Nat)) (hsr : srv.supportsRange = true)
    (hhr : srv.honorsRange = false) (hurl : m.url = url)
    (hlen : pb.length = m.downloaded_bytes) (hpos : 0 < pb.length)
    (hcs : 0 < chunk_size) (hne : (digest srv.content).isEmpty = false) :
    rangedFlag srv url true ⟨some pb, d, some m⟩ = true
    ∧ responseStatus srv url true ⟨some pb, d, some m⟩ = 200
    ∧ (download_with_resume digest srv url destination
        (some (digest srv.content)) hasCallback chunk_size true timeDue false
        none ⟨some pb, d, some m⟩).1 = true
    ∧ (download_with_resume digest srv url destination
        (some (digest srv.content)) hasCallback chunk_size true timeDue false
        none ⟨some pb, d, some m⟩).2.1 = ⟨none, some srv.content, none⟩ := by
  have hrc := resumeCheck_valid srv url ⟨some pb, d, some m⟩ pb m rfl rfl hurl hlen
  have hranged : rangedFlag srv url true ⟨some pb, d, some m⟩ = true := by
    unfold rangedFlag
    simp [hrc, hsr, hpos]
  have hstatus : responseStatus srv url true ⟨some pb, d, some m⟩ = 200 := by
    unfold responseStatus
    simp [hranged, hhr]
  have hres : resumedFlag srv url true ⟨some pb, d, some m⟩ = false := by
    unfold resumedFlag
    simp [hstatus]
  have hb : (rangedFlag srv url true ⟨some pb, d, some m⟩ && srv.honorsRange)
      = false := by simp [hhr]
  have h := run_restart_success digest srv url destination (digest srv.content)
    hasCallback chunk_size true timeDue ⟨some pb, d, some m⟩ hne hcs rfl hres hb
  exact ⟨hranged, hstatus, h.1, h.2⟩

/-- C6 witness: a valid two-byte resume state against a server that ignores
ranges. -/
theorem c6_ranged_200_restarts_witness :
    rangedFlag ⟨[1, 2, 3, 4, 5], true, false⟩ "u" true
        ⟨some [9, 9], none, some ⟨"u", 5, 2, "", "", "d"⟩⟩ = true
    ∧ responseStatus ⟨[1, 2, 3, 4, 5], true, false⟩ "u" true
        ⟨some [9, 9], none, some ⟨"u", 5, 2, "", "", "d"⟩⟩ = 200
    ∧ (download_with_resume (fun _ => "x") ⟨[1, 2, 3, 4, 5], true, false⟩ "u"
        "d" (some "x") false 2 true (fun _ => false) false none
        ⟨some [9, 9], none, some ⟨"u", 5, 2, "", "", "d"⟩⟩).1 = true
    ∧ (download_with_resume (fun _ => "x") ⟨[1, 2, 3, 4, 5], true, false⟩ "u"
        "d" (some "x") false 2 true (fun _ => false) false none
        ⟨some [9, 9], none, some ⟨"u", 5, 2, "", "", "d"⟩⟩).2.1
      = ⟨none, some [1, 2, 3, 4, 5], none⟩ :=
  c6_ranged_200_restarts (fun _ => "x") ⟨[1, 2, 3, 4, 5], true, false⟩ "u" "d"
    false 2 (fun _ => false) [9, 9] ⟨"u", 5, 2, "", "", "d"⟩ none rfl rfl rfl
    (by decide) (by decide) (by decide) (by decide)

/-- C5: a resume record whose URL does not match the URL being retried, or
whose byte count does not match the on-disk partial size, or a server that
does not advertise ranges, is never resumed from: the run has the same
outcome (success flag and final files) as a run started with no partial
file and no record at all — a restart from byte 0 with truncated partial
file and fresh hash. -/
theorem c5_invalid_record_restarts (digest : List Nat → String) (srv : Server)
    (url destination : String) (expected_sha256 : Option String)
    (hasCallback : Bool) (chunk_size : Nat) (timeDue : Nat → Bool)
    (d : Option (List Nat)) (pb : List Nat) (m : ResumeMetadata)
    (hmism : ¬(m.url = url ∧ pb.length = m.downloaded_bytes
        ∧ srv.supportsRange = true)) :
    (download_with_resume digest srv url destination expected_sha256 hasCallback
        chunk_size true timeDue false none ⟨some pb, d, some m⟩).1
      = (download_with_resume digest srv url destination expected_sha256
          hasCallback chunk_size true timeDue false none ⟨none, d, none⟩).1
    ∧ (download_with_resume digest srv url destination expected_sha256 hasCallback
        chunk_size true timeDue false none ⟨some pb, d, some m⟩).2.1
      = (download_with_resume digest srv url destination expected_sha256
          hasCallback chunk_size true timeDue false none ⟨none, d, none⟩).2.1 := by
  have h2L : (resumeCheck srv url true ⟨some pb, d, some m⟩).2 = false := by
    by_cases hu : m.url = url
    · by_cases hl : pb.length = m.downloaded_bytes
      · have hs : srv.supportsRange = false := by
          cases hsr : srv.supportsRange
          · rfl
          · exact absurd ⟨hu, hl, hsr⟩ hmism
        rw [resumeCheck_valid srv url _ pb m rfl rfl hu hl, hs]
      · unfold resumeCheck
        simp [hu, hl]
    · unfold resumeCheck
      simp [hu]
  have h2R : (resumeCheck srv url true ⟨none, d, none⟩).2 = false := by
    rw [resumeCheck_no_part]
  have hL := streamState_not_resumable srv url destination expected_sha256
    hasCallback chunk_size true timeDue none ⟨some pb, d, some m⟩ h2L
  have hR := streamState_not_resumable srv url destination expected_sha256
    hasCallback chunk_size true timeDue none ⟨none, d, none⟩ h2R
  have hp : (streamState srv url destination expected_sha256 hasCallback
      chunk_size true timeDue none ⟨some pb, d, some m⟩).partBytes
      = (streamState srv url destination expected_sha256 hasCallback chunk_size
          true timeDue none ⟨none, d, none⟩).partBytes := by
    rw [hL, hR, runLoop_partBytes, runLoop_partBytes]
  have hh : (streamState srv url destination expected_sha256 hasCallback
      chunk_size true timeDue none ⟨some pb, d, some m⟩).hashFed
      = (streamState srv url destination expected_sha256 hasCallback chunk_size
          true timeDue none ⟨none, d, none⟩).hashFed := by
    rw [hL, hR, runLoop_hashFed, runLoop_hashFed]
  exact finishRun_fst_snd_eq digest expected_sha256 _ _ hp hh

/-- C5 witness: a record recorded under a different URL forces the same
outcome as a fresh start. -/
theorem c5_invalid_record_restarts_witness :
    (download_with_resume (fun _ => "x") ⟨[1, 2], true, true⟩ "u" "d" (some "x")
        false 1 true (fun _ => false) false none
        ⟨some [9], none, some ⟨"v", 2, 1, "", "", "d"⟩⟩).1
      = (download_with_resume (fun _ => "x") ⟨[1, 2], true, true⟩ "u" "d"
          (some "x") false 1 true (fun _ => false) false none
          ⟨none, none, none⟩).1
    ∧ (download_with_resume (fun _ => "x") ⟨[1, 2], true, true⟩ "u" "d"
        (some "x") false 1 true (fun _ => false) false none
        ⟨some [9], none, some ⟨"v", 2, 1, "", "", "d"⟩⟩).2.1
      = (download_with_resume (fun _ => "x") ⟨[1, 2], true, true⟩ "u" "d"
          (some "x") false 1 true (fun _ => false) false none
          ⟨none, none, none⟩).2.1 :=
  c5_invalid_record_restarts (fun _ => "x") ⟨[1, 2], true, true⟩ "u" "d"
    (some "x") false 1 (fun _ => false) none [9] ⟨"v", 2, 1, "", "", "d"⟩
    (by decide)

/-- C3: for every complete (unfailed) run with a supplied (nonempty)
expected checksum whose computed hash — the digest of the byte stream fed to
the running hash — differs case-insensitively from the expected one, the
call returns failure, and afterwards neither the destination file, nor the
partial file, nor the resume sidecar exists. -/
theorem c3_checksum_mismatch_cleanup (digest : List Nat → String) (srv : Server)
    (url destination : String) (e : String) (hasCallback : Bool)
    (chunk_size : Nat) (allow_resume : Bool) (timeDue : Nat → Bool)
    (st : DLState) (hne : e.isEmpty = false)
    (hm : ¬strLower (digest ((streamState srv url destination (some e)
        hasCallback chunk_size allow_resume timeDue none st).hashFed.getD []))
      = strLower e) :
    (download_with_resume digest srv url destination (some e) hasCallback
        chunk_size allow_resume timeDue false none st).1 = false
    ∧ (download_with_resume digest srv url destination (some e) hasCallback
        chunk_size allow_resume timeDue false none st).2.1
      = ⟨none, none, none⟩ := by
  have he' : optStrSet (some e) = true := by simp [optStrSet, hne]
  have hfed := streamState_hashFed_eq_partBytes srv url destination (some e)
    hasCallback chunk_size allow_resume timeDue none st he'
  rw [hfed] at hm
  have hrun : download_with_resume digest srv url destination (some e)
      hasCallback chunk_size allow_resume timeDue false none st
      = finishRun digest (some e)
          (streamState srv url destination (some e) hasCallback chunk_size
            allow_resume timeDue none st) := rfl
  rw [hrun, finishRun_mismatch digest e _ _ hne hfed hm]
  exact ⟨rfl, rfl⟩

/-- C3 witness: a deliberately wrong expected checksum on a one-byte
download fails and leaves no destination, partial, or sidecar file. -/
theorem c3_checksum_mismatch_cleanup_witness :
    (download_with_resume (fun _ => "aa") ⟨[0], true, true⟩ "u" "d" (some "bb")
        false 1 true (fun _ => false) false none ⟨none, none, none⟩).1 = false
    ∧ (download_with_resume (fun _ => "aa") ⟨[0], true, true⟩ "u" "d"
        (some "bb") false 1 true (fun _ => false) false none
        ⟨none, none, none⟩).2.1 = ⟨none, none, none⟩ :=
  c3_checksum_mismatch_cleanup (fun _ => "aa") ⟨[0], true, true⟩ "u" "d" "bb"
    false 1 true (fun _ => false) ⟨none, none, none⟩ (by decide) (by decide)

/-- Scan the event trace of a run: `true` iff no rename happens before a
successful checksum verification. -/
def renamedOnlyAfterVerify : List Ev → Bool
  | [] => true
  | Ev.verified :: _ => true
  | Ev.renamed :: _ => false
  | _ :: rest => renamedOnlyAfterVerify rest

/-- C2 counterexample: the partial file is renamed onto the destination
*before* the checksum is verified (downloader.py lines 396-398 precede lines
400-409).  On this concrete run with a wrong expected checksum the trace is
`[renamed, mismatch, unlinkDest]`: an unverified (indeed corrupt) file
resided at the destination path mid-call and was deleted only afterwards,
refuting "renamed only after the checksum has been verified". -/
theorem c2_counterexample :
    (download_with_resume (fun _ => "aa") ⟨[0], true, true⟩ "u" "d" (some "bb")
        false 1 true (fun _ => false) false none ⟨none, none, none⟩).2.2
      = [Ev.renamed, Ev.mismatch, Ev.unlinkDest]
    ∧ renamedOnlyAfterVerify
        (download_with_resume (fun _ => "aa") ⟨[0], true, true⟩ "u" "d"
          (some "bb") false 1 true (fun _ => false) false none
          ⟨none, none, none⟩).2.2 = false := by
  refine ⟨by decide, by decide⟩

/-- C2 amended: the rename happens on stream completion, before checksum
verification, but a mismatch deletes the just-renamed destination file
before returning; consequently, for a call that starts with no file at the
destination and a (nonempty) expected checksum, any file present at the
destination when the call returns has a matching checksum and the call
returned success. -/
theorem c2_no_unverified_file_survives (digest : List Nat → String)
    (srv : Server) (url destination : String) (e : String)
    (hasCallback : Bool) (chunk_size : Nat) (allow_resume : Bool)
    (timeDue : Nat → Bool) (reqFail : Bool) (streamFail : Option Nat)
    (st : DLState) (b : List Nat) (hd : st.dest = none)
    (hne : e.isEmpty = false)
    (hb : (download_with_resume digest srv url destination (some e) hasCallback
        chunk_size allow_resume timeDue reqFail streamFail st).2.1.dest
      = some b) :
    (download_with_resume digest srv url destination (some e) hasCallback
        chunk_size allow_resume timeDue reqFail streamFail st).1 = true
    ∧ strLower (digest b) = strLower e := by
  cases reqFail with
  | true =>
    rw [show download_with_resume digest srv url destination (some e)
        hasCallback chunk_size allow_resume timeDue true streamFail st
        = (false, st, []) from rfl] at hb
    rw [show ((false, st, []) : Bool × DLState × List Ev).2.1.dest = st.dest
        from rfl, hd] at hb
    cases hb
  | false =>
    cases streamFail with
    | some k =>
      rw [show (download_with_resume digest srv url destination (some e)
          hasCallback chunk_size allow_resume timeDue false (some k) st).2.1.dest
          = st.dest from rfl, hd] at hb
      cases hb
    | none =>
      have he' : optStrSet (some e) = true := by simp [optStrSet, hne]
      have hfed := streamState_hashFed_eq_partBytes srv url destination (some e)
        hasCallback chunk_size allow_resume timeDue none st he'
      have hrun : download_with_resume digest srv url destination (some e)
          hasCallback chunk_size allow_resume timeDue false none st
          = finishRun digest (some e)
              (streamState srv url destination (some e) hasCallback chunk_size
                allow_resume timeDue none st) := rfl
      rw [hrun] at hb ⊢
      by_cases hm : strLower (digest (streamState srv url destination (some e)
          hasCallback chunk_size allow_resume timeDue none st).partBytes)
          = strLower e
      · rw [finishRun_verified digest e _ _ hne hfed hm] at hb ⊢
        simp only at hb
        injection hb with hb'
        exact ⟨rfl, hb' ▸ hm⟩
      · rw [finishRun_mismatch digest e _ _ hne hfed hm] at hb
        simp at hb

/-- C2 amended witness: a one-byte run with a matching checksum leaves a
verified file at the destination and reports success. -/
theorem c2_no_unverified_file_survives_witness :
    (download_with_resume (fun _ => "x") ⟨[7], true, true⟩ "u" "d" (some "x")
        false 1 true (fun _ => false) false none
        ⟨none, none, none⟩).2.1.dest = some [7]
    ∧ (download_with_resume (fun _ => "x") ⟨[7], true, true⟩ "u" "d" (some "x")
        false 1 true (fun _ => false) false none ⟨none, none, none⟩).1 = true
    ∧ strLower ((fun _ => "x") [7]) = strLower "x" := by
  have h := c2_no_unverified_file_survives (fun _ => "x") ⟨[7], true, true⟩
    "u" "d" "x" false 1 true (fun _ => false) false none ⟨none, none, none⟩
    [7] rfl (by decide) (by decide)
  exact ⟨by decide, h.1, h.2⟩

end LUXusb
